import Mathlib

/-!
Shallow embedding of `main.go` of the rssagg-discord repository.

The program keeps one global `FeedStore`: a Go map `feedURLs` from channel
ID to a slice of feed URLs, plus a `timeout` duration (int64 nanoseconds).
We model the map as an association list (`mapGet` returns `[]` for a
missing key, exactly as a Go map lookup yields a nil slice) and the
duration as `Int`.  External collaborators — `gofeed`'s `ParseURL` and Go's
`time.ParseDuration` — are parameters of the embedded functions: a fetch
is a function `String → Option (List Item)` (`none` models a fetch/parse
error, `some items` a parsed feed with the given item slice) and a parse
is a function `String → Except String Int` (`.error e` models a
`time.ParseDuration` failure whose `Error()` text is `e`).
-/

namespace RssAgg

/-- One entry of a parsed feed (`gofeed.Item`): the fields the program
uses, a title and a link. -/
structure Item where
  title : String
  link : String
deriving Repr, DecidableEq

/-- The global store (`FeedStore` in `main.go`): the channel→URLs map and
the polling timeout in nanoseconds. -/
structure FeedStore where
  feedURLs : List (String × List String)
  timeout : Int
deriving Repr, DecidableEq

/-- Go map read `m[k]`: a missing key yields the nil slice, i.e. `[]`. -/
def mapGet (m : List (String × List String)) (k : String) : List String :=
  match m with
  | [] => []
  | (k1, v1) :: rest => if k1 == k then v1 else mapGet rest k

/-- Go map write `m[k] = v`: replace the entry for `k`, or create one. -/
def mapSet (m : List (String × List String)) (k : String) (v : List String) :
    List (String × List String) :=
  match m with
  | [] => [(k, v)]
  | (k1, v1) :: rest => if k1 == k then (k, v) :: rest else (k1, v1) :: mapSet rest k v

/-- The key set iterated by `for channelID := range feedStore.feedURLs`. -/
def mapKeys (m : List (String × List String)) : List String :=
  m.map (fun p => p.1)

/-- The store the program starts with: empty map, 30-minute timeout. -/
def initialFeedStore : FeedStore :=
  { feedURLs := [], timeout := 30 * 60 * 1000000000 }

/-- `FeedStore.AddFeed`: append `feedURL` to the channel's slice and store
it back.  (The Go method performs no duplicate check itself.) -/
def AddFeed (fs : FeedStore) (channelID feedURL : String) : FeedStore :=
  let feeds := mapGet fs.feedURLs channelID
  { fs with feedURLs := mapSet fs.feedURLs channelID (feeds ++ [feedURL]) }

/-- `FeedStore.RemoveFeed`: keep every stored URL different from
`feedURL` (starting from the empty slice `newFeeds`), store the result
back.  Removes all occurrences; never errors. -/
def RemoveFeed (fs : FeedStore) (channelID feedURL : String) : FeedStore :=
  let feeds := mapGet fs.feedURLs channelID
  let newFeeds := feeds.filter (fun stored => stored != feedURL)
  { fs with feedURLs := mapSet fs.feedURLs channelID newFeeds }

/-- `FeedStore.ListFeed`: the reply text for the `list` command. -/
def ListFeed (fs : FeedStore) (channelID : String) : String :=
  let feeds := mapGet fs.feedURLs channelID
  if feeds.length == 0 then "No RSS feeds subscribed."
  else "Subscribed feeds:\n" ++ String.intercalate "\n" feeds

/-- `FeedStore.UpdateTimeout`: parse the duration string; on error return
the error with the store untouched, otherwise store the parsed duration.
`parse` stands for Go's `time.ParseDuration`. -/
def UpdateTimeout (parse : String → Except String Int) (fs : FeedStore)
    (timeoutStr : String) : FeedStore × Option String :=
  match parse timeoutStr with
  | Except.error e => (fs, some e)
  | Except.ok d => ({ fs with timeout := d }, none)

/-- `FeedStore.FeedExists`: `slices.Contains` over the channel's slice. -/
def FeedExists (fs : FeedStore) (channelID feedURL : String) : Bool :=
  (mapGet fs.feedURLs channelID).contains feedURL

/-- The loop body of `fetchRSS` over the remaining URL list: a failed
fetch/parse (`none`) or an empty item slice means `continue`; otherwise
return the feed's first item. -/
def fetchRSSLoop (fetch : String → Option (List Item)) :
    List String → Option Item
  | [] => none
  | feedUrl :: rest =>
    match fetch feedUrl with
    | none => fetchRSSLoop fetch rest
    | some items =>
      match items with
      | [] => fetchRSSLoop fetch rest
      | item :: _ => some item

/-- `fetchRSS(channelID)`: read the channel's URL list straight off the
global map (no lock is taken in the source) and try the URLs in stored
order; `none` models the final `error: no items found for any feed`. -/
def fetchRSS (fetch : String → Option (List Item)) (fs : FeedStore)
    (channelID : String) : Option Item :=
  fetchRSSLoop fetch (mapGet fs.feedURLs channelID)

/-- The notification text built in the scheduler's closure from the
fetched item's title and link. -/
def formatMsg (item : Item) : String :=
  "🆕 New blog post: **" ++ item.title ++ "**\n" ++ item.link

/-- One scheduler tick (the closure passed to `c.AddFunc`): snapshot the
channel IDs, then for each channel fetch; on a fetch error log and
`continue`, otherwise post the formatted message.  The result is the list
of `(channelID, message)` pairs handed to `postToDiscord`; the tick itself
is total — no per-channel failure escapes it. -/
def tick (fetch : String → Option (List Item)) (fs : FeedStore) :
    List (String × String) :=
  let channels := mapKeys fs.feedURLs
  channels.filterMap (fun channelID =>
    match fetchRSS fetch fs channelID with
    | none => none
    | some item => some (channelID, formatMsg item))

/-- The fields of an inbound Discord message that `messageCreate` reads. -/
structure Message where
  content : String
  channelID : String
  authorBot : Bool
  guildID : String

/-- Helper for `goFields`: walk the characters, `acc` holding the current
token reversed. -/
def fieldsAux : List Char → List Char → List String
  | acc, [] => if acc.isEmpty then [] else [String.mk acc.reverse]
  | acc, c :: cs =>
    if c.isWhitespace then
      (if acc.isEmpty then fieldsAux [] cs else String.mk acc.reverse :: fieldsAux [] cs)
    else fieldsAux (c :: acc) cs

/-- Go's `strings.Fields`: split around runs of whitespace. -/
def goFields (s : String) : List String :=
  fieldsAux [] s.data

/-- Go's `strings.HasPrefix`. -/
def goStartsWith (s pre : String) : Bool :=
  pre.data.isPrefixOf s.data

/-- `messageCreate`, the command handler.  Returns `none` when the Go code
panics (the out-of-range index `args[2]` in the `list` branch), otherwise
`some (store', replies)`: the updated store and the texts sent with
`s.ChannelMessageSend` in order.  The two identical `HasPrefix` guards of
the source collapse to one check.  Note two source oddities kept
faithfully: the `add` branch calls `AddFeed` twice (lines 219 and 229),
and the `remove` branch returns early when the URL's membership check
succeeds (line 239), so `RemoveFeed` runs only when the URL is absent. -/
def messageCreate (parse : String → Except String Int) (fs : FeedStore)
    (m : Message) : Option (FeedStore × List String) :=
  if m.authorBot then some (fs, [])
  else if !(goStartsWith m.content "/rss") then some (fs, [])
  else
    let args := goFields m.content
    if args.length < 2 then
      some (fs, ["Usage: /rss <add|remove|list|update_timeout> [url|duration]"])
    else
      let command := args.getD 1 ""
      if command == "add" then
        if args.length < 3 then some (fs, ["Please provide a feed URL to add"])
        else if FeedExists fs m.channelID (args.getD 2 "") then
          some (fs, ["URL already exists."])
        else
          let fs1 := AddFeed fs m.channelID (args.getD 2 "")
          let fs2 := AddFeed fs1 m.channelID (args.getD 2 "")
          some (fs2, ["Feed added."])
      else if command == "remove" then
        if args.length < 3 then some (fs, ["Please provide a feed URL to remove"])
        else if FeedExists fs m.channelID (args.getD 2 "") then
          some (fs, ["URL already exists."])
        else
          some (RemoveFeed fs m.channelID (args.getD 2 ""), ["Feed removed."])
      else if command == "list" then
        if args.length < 3 then none
        else some (fs, [ListFeed fs m.channelID])
      else if command == "update_timeout" then
        if args.length < 3 then some (fs, ["Usage: /rss update_timeout <10m|1h|etc>"])
        else
          match UpdateTimeout parse fs (args.getD 2 "") with
          | (_, some e) => some (fs, ["Invalid timeout format: " ++ e])
          | (fs1, none) => some (fs1, ["Timeout updated to " ++ args.getD 2 ""])
      else some (fs, [])

/-- The process state relevant to scheduling: the store plus the cadence
configured into the cron timer by `schedulePeriodicUpdates` (which builds
the schedule string from `feedStore.timeout` once, when called).  `none`
means the scheduler has not been started. -/
structure World where
  store : FeedStore
  cronEvery : Option Int
deriving Repr, DecidableEq

/-- `schedulePeriodicUpdates`: reads `feedStore.timeout` once and bakes it
into the cron schedule (`@every <timeout>`); nothing re-reads it later. -/
def startScheduler (w : World) : World :=
  { w with cronEvery := some w.store.timeout }

/-- An `update_timeout` command applied to the running process: it goes
through `FeedStore.UpdateTimeout`, which writes only `fs.timeout`; the
cron object is untouched. -/
def worldUpdateTimeout (parse : String → Except String Int) (w : World)
    (s : String) : World :=
  { w with store := (UpdateTimeout parse w.store s).1 }

/-- A sequence of `update_timeout` commands applied in order. -/
def runUpdates (parse : String → Except String Int) (w : World)
    (ss : List String) : World :=
  ss.foldl (worldUpdateTimeout parse) w

/-! ### Lock-access traces

For the concurrency claim we record, for each function of the source, the
sequence of lock operations and shared-state accesses it performs, in
source order.  `disciplined` checks such a trace from a given lock state:
a read of shared state needs the shared or the exclusive lock, a write
needs the exclusive lock. -/

/-- One lock operation or shared-state access of `feedStore`. -/
inductive Access where
  | lockW | unlockW | lockR | unlockR
  | readMap | writeMap | readTimeout | writeTimeout
deriving Repr, DecidableEq

/-- The lock as seen by the executing goroutine. -/
inductive LockState where
  | free | shared | excl
deriving Repr, DecidableEq

/-- A trace respects the lock discipline: every read under some lock,
every write under the exclusive lock, lock and unlock well nested. -/
def disciplined : LockState → List Access → Bool
  | _, [] => true
  | st, Access.lockW :: rest => st == LockState.free && disciplined LockState.excl rest
  | st, Access.unlockW :: rest => st == LockState.excl && disciplined LockState.free rest
  | st, Access.lockR :: rest => st == LockState.free && disciplined LockState.shared rest
  | st, Access.unlockR :: rest => st == LockState.shared && disciplined LockState.free rest
  | st, Access.readMap :: rest => !(st == LockState.free) && disciplined st rest
  | st, Access.readTimeout :: rest => !(st == LockState.free) && disciplined st rest
  | st, Access.writeMap :: rest => st == LockState.excl && disciplined st rest
  | st, Access.writeTimeout :: rest => st == LockState.excl && disciplined st rest

/-- `AddFeed` (lines 29–35): `Lock`, read the map, write it back, `Unlock`
(the deferred unlock). -/
def AddFeedTrace : List Access :=
  [Access.lockW, Access.readMap, Access.writeMap, Access.unlockW]

/-- `RemoveFeed` (lines 37–48): `Lock`, read, write, `Unlock`. -/
def RemoveFeedTrace : List Access :=
  [Access.lockW, Access.readMap, Access.writeMap, Access.unlockW]

/-- `ListFeed` (lines 50–58): `RLock`, read the map, `RUnlock`. -/
def ListFeedTrace : List Access :=
  [Access.lockR, Access.readMap, Access.unlockR]

/-- `UpdateTimeout` (lines 60–69): `Lock`; on a parse error nothing is
touched, otherwise `timeout` is written; `Unlock`. -/
def UpdateTimeoutTrace (parseOk : Bool) : List Access :=
  if parseOk then [Access.lockW, Access.writeTimeout, Access.unlockW]
  else [Access.lockW, Access.unlockW]

/-- `FeedExists` (lines 71–76): `RLock`, read the map, `RUnlock`. -/
def FeedExistsTrace : List Access :=
  [Access.lockR, Access.readMap, Access.unlockR]

/-- `fetchRSS` line 84: `feedStore.feedURLs[channelID]` is read with no
lock held. -/
def fetchRSSTrace : List Access :=
  [Access.readMap]

/-- The scheduler closure's channel snapshot (lines 138–143): `RLock`,
read the map keys, `RUnlock`. -/
def snapshotTrace : List Access :=
  [Access.lockR, Access.readMap, Access.unlockR]

/-- `schedulePeriodicUpdates` line 137: `feedStore.timeout` is read, with
no lock held, to build the cron schedule string. -/
def schedStartTrace : List Access :=
  [Access.readTimeout]

/-- The claim of the concurrency contract, stated over the traces: every
function of the program that touches `feedStore` does so under the
discipline — including `fetchRSS`'s map read and the scheduler's
start-time timeout read. -/
def allAccessesDisciplined : Prop :=
  disciplined LockState.free AddFeedTrace = true ∧
  disciplined LockState.free RemoveFeedTrace = true ∧
  disciplined LockState.free ListFeedTrace = true ∧
  disciplined LockState.free (UpdateTimeoutTrace true) = true ∧
  disciplined LockState.free (UpdateTimeoutTrace false) = true ∧
  disciplined LockState.free FeedExistsTrace = true ∧
  disciplined LockState.free snapshotTrace = true ∧
  disciplined LockState.free fetchRSSTrace = true ∧
  disciplined LockState.free schedStartTrace = true

/-- A sample stand-in for `time.ParseDuration`, used to instantiate
concrete runs: it understands the one string `10m`. -/
def sampleParse : String → Except String Int :=
  fun s => if s = "10m" then Except.ok 600000000000
           else Except.error ("time: invalid duration " ++ s)

/-! ### Lemmas about the map model -/

theorem mapGet_mapSet_self (m : List (String × List String)) (k : String)
    (v : List String) : mapGet (mapSet m k v) k = v := by
  induction m with
  | nil => simp [mapSet, mapGet]
  | cons p rest ih =>
    obtain ⟨k1, v1⟩ := p
    by_cases h : (k1 == k) = true
    · simp [mapSet, mapGet, h]
    · simp [mapSet, mapGet, h, ih]

theorem mapGet_mapSet_ne (m : List (String × List String)) (k j : String)
    (v : List String) (h : k ≠ j) : mapGet (mapSet m k v) j = mapGet m j := by
  induction m with
  | nil => simp [mapSet, mapGet, h]
  | cons p rest ih =>
    obtain ⟨k1, v1⟩ := p
    by_cases h1 : (k1 == k) = true
    · have hk : k1 = k := by simpa using h1
      subst hk
      simp [mapSet, mapGet, h]
    · simp [mapSet, mapGet, h1, ih]

/-! ### Claim theorems -/

/-- C1: the claim says that processing an `add` command leaves the URL in
the channel's list exactly once.  The code violates it: on a fresh store,
one single `/rss add http://u` command yields the reply `Feed added.` but
stores `http://u` twice (the handler calls `AddFeed` twice), so the
subscription list contains the URL with count 2, not 1. -/
theorem addCommandStoresUrlTwice :
    messageCreate sampleParse initialFeedStore
      { content := "/rss add http://u", channelID := "c", authorBot := false,
        guildID := "g" } =
      some ({ feedURLs := [("c", ["http://u", "http://u"])],
              timeout := 1800000000000 }, ["Feed added."]) ∧
    List.count "http://u"
      (mapGet [("c", ["http://u", "http://u"])] "c") = 2 := by
  constructor
  · decide
  · decide

/-- C2: the claim says a `remove` command for a currently subscribed URL
invokes the registry removal, after which the URL is gone.  The code
violates it: the membership guard in the `remove` branch is inverted, so
for a store where channel `c` subscribes `http://u`, the command
`/rss remove http://u` replies `URL already exists.`, never calls
`RemoveFeed`, and leaves the store unchanged with the URL still
present. -/
theorem removeCommandRefusesExistingUrl :
    messageCreate sampleParse
      { feedURLs := [("c", ["http://u"])], timeout := 1800000000000 }
      { content := "/rss remove http://u", channelID := "c",
        authorBot := false, guildID := "g" } =
      some ({ feedURLs := [("c", ["http://u"])], timeout := 1800000000000 },
            ["URL already exists."]) ∧
    FeedExists
      { feedURLs := [("c", ["http://u"])], timeout := 1800000000000 }
      "c" "http://u" = true := by
  constructor
  · decide
  · decide

/-- C3: for any store, any parse function and any channel/guild, a user
message whose content is exactly `/rss list` drives the handler into the
`list` branch where the source evaluates `args[2]` on a two-element
argument list; the embedded handler returns `none` (the Go code panics
with an index-out-of-range instead of replying). -/
theorem listCommandHitsOutOfRange (parse : String → Except String Int)
    (fs : FeedStore) (cid gid : String) :
    messageCreate parse fs
      { content := "/rss list", channelID := cid, authorBot := false,
        guildID := gid } = none := rfl

/-- C4: for every parse outcome on a string, `UpdateTimeout` either
returns the parse error with the store untouched (in particular the stored
interval unchanged), or succeeds returning no error with the stored
interval now the parsed duration. -/
theorem updateTimeoutSpec (parse : String → Except String Int)
    (fs : FeedStore) (s : String) :
    (∀ e, parse s = Except.error e →
      UpdateTimeout parse fs s = (fs, some e) ∧
      (UpdateTimeout parse fs s).1.timeout = fs.timeout) ∧
    (∀ d, parse s = Except.ok d →
      UpdateTimeout parse fs s = ({ fs with timeout := d }, none) ∧
      (UpdateTimeout parse fs s).1.timeout = d) := by
  constructor
  · intro e he
    simp [UpdateTimeout, he]
  · intro d hd
    simp [UpdateTimeout, hd]

/-- Witness for C4 at `sampleParse`: `not-a-duration` fails and leaves the
30-minute default in place; `10m` succeeds and the interval then reads as
ten minutes in nanoseconds. -/
theorem updateTimeoutSpecWitness :
    (sampleParse "not-a-duration" =
        Except.error "time: invalid duration not-a-duration" ∧
      (UpdateTimeout sampleParse initialFeedStore "not-a-duration").1.timeout =
        initialFeedStore.timeout) ∧
    (sampleParse "10m" = Except.ok 600000000000 ∧
      (UpdateTimeout sampleParse initialFeedStore "10m").1.timeout =
        600000000000) := by
  constructor
  · exact ⟨rfl,
      ((updateTimeoutSpec sampleParse initialFeedStore "not-a-duration").1
        "time: invalid duration not-a-duration" rfl).2⟩
  · exact ⟨rfl,
      ((updateTimeoutSpec sampleParse initialFeedStore "10m").2
        600000000000 rfl).2⟩

/-- C5: when a channel's stored list is `[A, B]`, fetching `A` fails (an
error or an empty feed) and fetching `B` parses to a feed whose first item
is `X`, `fetchRSS` returns `X`: URLs are tried in stored order and the
first item of the first non-empty successfully fetched feed wins. -/
theorem fetchRSSFirstSuccessWins (fetch : String → Option (List Item))
    (fs : FeedStore) (c A B : String) (X : Item) (rest : List Item)
    (hlist : mapGet fs.feedURLs c = [A, B])
    (hA : fetch A = none ∨ fetch A = some [])
    (hB : fetch B = some (X :: rest)) :
    fetchRSS fetch fs c = some X := by
  unfold fetchRSS
  rw [hlist]
  rcases hA with h | h <;> simp [fetchRSSLoop, h, hB]

/-- A sample fetch outcome for concrete runs: URL `B` parses to a feed
with one item, every other URL errors. -/
def sampleFetch : String → Option (List Item) :=
  fun u => if u = "B" then some [{ title := "t", link := "l" }] else none

/-- Witness for C5: channel `c` stores `[A, B]`, `A` errors, `B` has item
`⟨t, l⟩`, and `fetchRSS` returns that item. -/
theorem fetchRSSFirstSuccessWinsWitness :
    mapGet [("c", ["A", "B"])] "c" = ["A", "B"] ∧
    sampleFetch "A" = none ∧
    sampleFetch "B" = some [{ title := "t", link := "l" }] ∧
    fetchRSS sampleFetch { feedURLs := [("c", ["A", "B"])], timeout := 0 }
      "c" = some { title := "t", link := "l" } :=
  ⟨by decide, by decide, by decide,
    fetchRSSFirstSuccessWins sampleFetch
      { feedURLs := [("c", ["A", "B"])], timeout := 0 } "c" "A" "B"
      { title := "t", link := "l" } [] (by decide) (Or.inl (by decide))
      (by decide)⟩

/-- The loop of `fetchRSS` yields no item exactly when every URL of the
list either fails to fetch/parse or parses to a feed with no items. -/
theorem fetchRSSLoopNoneIff (fetch : String → Option (List Item))
    (l : List String) :
    fetchRSSLoop fetch l = none ↔
      ∀ url ∈ l, fetch url = none ∨ fetch url = some [] := by
  induction l with
  | nil => simp [fetchRSSLoop]
  | cons u rest ih =>
    cases hu : fetch u with
    | none => simp [fetchRSSLoop, hu, ih]
    | some items =>
      cases items with
      | nil => simp [fetchRSSLoop, hu, ih]
      | cons i tl =>
        simp only [fetchRSSLoop, hu]
        constructor
        · intro h
          exact absurd h (by simp)
        · intro h
          rcases h u (by simp) with h1 | h1 <;> rw [hu] at h1 <;> simp at h1

/-- C6: `fetchRSS` returns the `no items found` error exactly when no
subscribed URL of the channel yields an item — every URL in the stored
list fails to fetch/parse or has zero items (vacuously so for an empty
list); a per-URL failure alone never forces the error while a later URL
can still succeed. -/
theorem fetchRSSNoneIffNoUrlYields (fetch : String → Option (List Item))
    (fs : FeedStore) (c : String) :
    fetchRSS fetch fs c = none ↔
      ∀ url ∈ mapGet fs.feedURLs c,
        fetch url = none ∨ fetch url = some [] :=
  fetchRSSLoopNoneIff fetch (mapGet fs.feedURLs c)

/-- C7: removing a URL that a channel does not currently list neither
errors (`RemoveFeed` is total) nor changes the observable registry state:
every channel's subscription list reads the same afterwards, and the poll
interval is untouched. -/
theorem removeAbsentIsNoOp (fs : FeedStore) (c u : String)
    (h : u ∉ mapGet fs.feedURLs c) :
    (∀ ch, mapGet (RemoveFeed fs c u).feedURLs ch =
      mapGet fs.feedURLs ch) ∧
    (RemoveFeed fs c u).timeout = fs.timeout := by
  constructor
  · intro ch
    show mapGet (mapSet fs.feedURLs c
      ((mapGet fs.feedURLs c).filter (fun stored => stored != u))) ch =
      mapGet fs.feedURLs ch
    have hfilter : (mapGet fs.feedURLs c).filter
        (fun stored => stored != u) = mapGet fs.feedURLs c := by
      apply List.filter_eq_self.mpr
      intro a ha
      simp only [bne_iff_ne, ne_eq, decide_eq_true_eq]
      exact fun heq => h (heq ▸ ha)
    by_cases hch : c = ch
    · subst hch
      rw [mapGet_mapSet_self, hfilter]
    · rw [mapGet_mapSet_ne _ _ _ _ hch]
  · rfl

/-- Witness for C7: channel `c` lists only `a`; removing `b` leaves both
`c`'s list and the interval exactly as they were. -/
theorem removeAbsentIsNoOpWitness :
    "b" ∉ mapGet [("c", ["a"])] "c" ∧
    mapGet (RemoveFeed { feedURLs := [("c", ["a"])], timeout := 7 }
      "c" "b").feedURLs "c" = mapGet [("c", ["a"])] "c" ∧
    (RemoveFeed { feedURLs := [("c", ["a"])], timeout := 7 }
      "c" "b").timeout = 7 :=
  ⟨by decide,
    (removeAbsentIsNoOp { feedURLs := [("c", ["a"])], timeout := 7 }
      "c" "b" (by decide)).1 "c",
    (removeAbsentIsNoOp { feedURLs := [("c", ["a"])], timeout := 7 }
      "c" "b" (by decide)).2⟩

/-- C8: on a tick whose channel snapshot holds exactly the two channels
`c1` and `c2` (in whatever order the Go map yields them), where fetching
for `c1` ends in the no-items error and fetching for `c2` yields item `X`,
the tick dispatches exactly one notification: to `c2`, formatted from
`X`'s title and link.  The tick is a total function — `c1`'s failure is
swallowed by the `continue` and never aborts the tick. -/
theorem tickDispatchesExactlyOne (fetch : String → Option (List Item))
    (fs : FeedStore) (c1 c2 : String) (X : Item)
    (hperm : (mapKeys fs.feedURLs).Perm [c1, c2])
    (h1 : fetchRSS fetch fs c1 = none)
    (h2 : fetchRSS fetch fs c2 = some X) :
    tick fetch fs = [(c2, formatMsg X)] := by
  unfold tick
  have hp := hperm.filterMap (fun channelID =>
    match fetchRSS fetch fs channelID with
    | none => none
    | some item => some (channelID, formatMsg item))
  have hconc : List.filterMap (fun channelID =>
      match fetchRSS fetch fs channelID with
      | none => none
      | some item => some (channelID, formatMsg item)) [c1, c2] =
      [(c2, formatMsg X)] := by
    simp [List.filterMap_cons, h1, h2]
  rw [hconc] at hp
  exact List.perm_singleton.mp hp

/-- Witness for C8: two channels, `c1` subscribing the failing URL `A`
and `c2` the good URL `B`; the tick posts one message, to `c2`. -/
theorem tickDispatchesExactlyOneWitness :
    (mapKeys [("c1", ["A"]), ("c2", ["B"])]).Perm ["c1", "c2"] ∧
    fetchRSS sampleFetch
      { feedURLs := [("c1", ["A"]), ("c2", ["B"])], timeout := 0 }
      "c1" = none ∧
    fetchRSS sampleFetch
      { feedURLs := [("c1", ["A"]), ("c2", ["B"])], timeout := 0 }
      "c2" = some { title := "t", link := "l" } ∧
    tick sampleFetch
      { feedURLs := [("c1", ["A"]), ("c2", ["B"])], timeout := 0 } =
      [("c2", formatMsg { title := "t", link := "l" })] :=
  ⟨by decide, by decide, by decide,
    tickDispatchesExactlyOne sampleFetch
      { feedURLs := [("c1", ["A"]), ("c2", ["B"])], timeout := 0 }
      "c1" "c2" { title := "t", link := "l" } (by decide) (by decide)
      (by decide)⟩

/-- `runUpdates` only touches the store; the cadence baked into the cron
timer is untouched by any number of `update_timeout` commands. -/
theorem runUpdates_cronEvery (parse : String → Except String Int)
    (ss : List String) :
    ∀ w : World, (runUpdates parse w ss).cronEvery = w.cronEvery := by
  induction ss with
  | nil => intro w; rfl
  | cons s rest ih =>
    intro w
    show (runUpdates parse (worldUpdateTimeout parse w s) rest).cronEvery =
      w.cronEvery
    rw [ih (worldUpdateTimeout parse w s)]
    rfl

/-- C9: the scheduler's cadence is the interval read once at start: after
any sequence of `update_timeout` commands following `startScheduler`, the
running scheduler's configured cadence is still the interval the store
held at start time; only starting the scheduler again picks up the store's
then-current interval. -/
theorem schedulerCadenceFixedAtStart (parse : String → Except String Int)
    (w : World) (ss : List String) :
    (runUpdates parse (startScheduler w) ss).cronEvery =
      some w.store.timeout ∧
    (startScheduler (runUpdates parse (startScheduler w) ss)).cronEvery =
      some (runUpdates parse (startScheduler w) ss).store.timeout := by
  constructor
  · rw [runUpdates_cronEvery parse ss (startScheduler w)]
    rfl
  · rfl

/-- C10: the claim says every read and write of the shared registry state
holds the appropriate lock.  The code violates it: all five `FeedStore`
methods and the scheduler's channel snapshot do follow the discipline, but
`fetchRSS` reads `feedStore.feedURLs` with no lock held (line 84), and
`schedulePeriodicUpdates` reads `feedStore.timeout` with no lock held
(line 137), so the program-wide discipline property is false. -/
theorem lockDisciplineViolatedByFetchRSS :
    ¬ allAccessesDisciplined ∧
    disciplined LockState.free fetchRSSTrace = false ∧
    disciplined LockState.free schedStartTrace = false ∧
    disciplined LockState.free AddFeedTrace = true ∧
    disciplined LockState.free RemoveFeedTrace = true ∧
    disciplined LockState.free ListFeedTrace = true ∧
    disciplined LockState.free (UpdateTimeoutTrace true) = true ∧
    disciplined LockState.free (UpdateTimeoutTrace false) = true ∧
    disciplined LockState.free FeedExistsTrace = true ∧
    disciplined LockState.free snapshotTrace = true := by
  refine ⟨fun h => ?_, by decide, by decide, by decide, by decide,
    by decide, by decide, by decide, by decide, by decide⟩
  have hfetch := h.2.2.2.2.2.2.2.1
  exact absurd hfetch (by decide)

end RssAgg
